import Mathlib

/-!
Verification of the vectorized table-scan compilation unit
(`src/codegen/operator/table_scan_translator.cpp` of the Peloton engine).

The C++ file is a code *generator*: it emits LLVM IR that, at query run time,
iterates a table chunk's row range, filters rows by a predicate (a
lane-parallel pass over an aligned prefix plus a scalar remainder loop, then a
scalar residual pass), filters by transaction visibility, assembles a row
batch over the surviving selection vector and pushes it downstream.  This
development shallowly embeds the run-time behavior of the generated code for
the *active* configuration of the source: the `#define ORIGINAL_ORDER` at line
32 is commented out, so the `#else` branches (predicate filter first, then
visibility) are the code being modelled.

External collaborators (the expression evaluator `codegen::Value`, the type
system, and `TransactionRuntime::PerformVectorizedRead`) are not part of this
file set; where their behavior decides a claim they are modelled from the
specification, and each such definition says so in its doc comment.
-/

namespace Peloton

/-- SQL type tags, as far as the scan code inspects them: the only test the
source performs is `GetSqlType() == type::Boolean::Instance()` (lines
589, 635, 678), so the embedding only needs to distinguish boolean from
non-boolean types. -/
inductive SqlTypeId where
  | boolean
  | integer
  | varchar
deriving DecidableEq

/-- A `codegen::Value` as observed by the scan code: its SQL type, its
boolean payload (meaningful when `typ = boolean`) and its null flag.
Mirrors the triple (type, value, null-bit) the source threads through
`DeriveValue` / comparison calls. -/
structure TypedVal where
  typ : SqlTypeId
  truth : Bool
  isNull : Bool
deriving DecidableEq

/-- The six comparison operators dispatched by the `switch` on
`exp_cmp->GetExpressionType()` at lines 566-587 of the source
(`COMPARE_EQUAL`, `COMPARE_NOTEQUAL`, `COMPARE_LESSTHAN`,
`COMPARE_LESSTHANOREQUALTO`, `COMPARE_GREATERTHAN`,
`COMPARE_GREATERTHANOREQUALTO`). -/
inductive CmpOp where
  | eq | ne | lt | le | gt | ge
deriving DecidableEq

/-- Value-level meaning of each comparison operator (the `CompareEq` ..
`CompareGte` calls at lines 566-587), on the integer representation of
fixed-width SQL values. -/
def CmpOp.apply : CmpOp → Int → Int → Bool
  | .eq, a, b => decide (a = b)
  | .ne, a, b => decide (a ≠ b)
  | .lt, a, b => decide (a < b)
  | .le, a, b => decide (a ≤ b)
  | .gt, a, b => decide (b < a)
  | .ge, a, b => decide (b ≤ a)

/-- One operand of a lane-eligible (SIMD) comparison predicate, as the source
distinguishes them by `dynamic_cast` at lines 502 and 531: either a
`ConstantValueExpression` (broadcast by `CreateVectorSplat`) or a
`TupleValueExpression` (a fixed-width column, bulk-loaded by
`CreateMaskedLoad`).  A column carries its declared nullability and the null
sentinel of its SQL type (`sql_type.GetNullValue`, line 520/549): the
generated code detects a null lane by comparing the raw stored value against
that sentinel (lines 517-525 and 546-554). -/
inductive Operand where
  | const (v : Int) (isNull : Bool)
  | column (col : Nat) (nullable : Bool) (sentinel : Int)

/-- A lane-eligible comparison predicate: a binary comparison between two
operands (lines 479-480 take `GetChild(0)` / `GetChild(1)`).  `castL` and
`castR` are the casts to the common comparison type computed by
`type::TypeSystem::GetComparison` and applied by `CastTo` (lines 489-497,
506, 523, 535, 552); the type system is an external collaborator, so the
casts are carried as opaque functions on the value representation. -/
structure SIMDPred where
  op : CmpOp
  lhs : Operand
  rhs : Operand
  castL : Int → Int
  castR : Int → Int

/-- Physical column storage of the chunk being scanned: the raw fixed-width
value of column `c` at row id `t`.  Null values are stored as the column
type's null sentinel, which is exactly what the masked bulk load at lines
516/545 reads back. -/
def Storage := Nat → Nat → Int

/-- Evaluation of one comparison operand at one row, producing the cast value
and the null flag.  A column operand yields the raw stored value, cast by the
comparison-type cast, with null flag `nullable AND raw = sentinel` (lines
508-528/537-557: masked load, sentinel comparison when nullable, then
`CastTo`); a non-nullable column never has its null flag set (the `else` at
lines 526-527/555-556).  Modelled from the spec: for a constant operand the
source splats `eval_row.CastTo(..).GetValue()` (lines 502-507/531-536) and
the constant's null flag travels through the external `codegen::Value`
machinery; per the specification, null-lane masks are tracked per operand, so
the constant's own null flag is its null-lane mask. -/
def evalOperand (cast : Int → Int) (st : Storage) (o : Operand) (t : Nat) :
    Int × Bool :=
  match o with
  | .const v isNull => (cast v, isNull)
  | .column c nullable sentinel =>
      (cast (st c t), nullable && (decide (st c t = sentinel)))

/-- The comparison result for one predicate at one row, as a typed value:
the comparison of the two cast operands under the predicate's operator with
three-valued null propagation.  The result always carries boolean SQL type.
Modelled from the spec for the external `codegen::Value::Compare*` calls
(lines 566-587): a comparison with any null operand yields a null
boolean-typed result (three-valued logic); the operator itself acts on the
cast representations. -/
def compareTyped (st : Storage) (p : SIMDPred) (t : Nat) : TypedVal :=
  let l := evalOperand p.castL st p.lhs t
  let r := evalOperand p.castR st p.rhs t
  { typ := SqlTypeId.boolean
    truth := p.op.apply l.1 r.1
    isNull := l.2 || r.2 }

/-- `type::Boolean::Instance().Reify` (lines 590, 638, 681): collapse a
three-valued boolean to a concrete filtering decision, null collapsing to
false. -/
def reifyB (v : TypedVal) : Bool :=
  !v.isNull && v.truth

/-- The `PELOTON_ASSERT(... == type::Boolean::Instance())` guarding every
`Reify` call (lines 589-590, 635-638, 678-681), followed by the reification
itself: a non-boolean-typed reified predicate value is a fatal
programming-contract failure, not a filtering decision. -/
def reifyChecked (v : TypedVal) : Except String Bool :=
  if v.typ = SqlTypeId.boolean then Except.ok (reifyB v)
  else Except.error "reified predicate value is not of boolean type"

/-- The running lane mask for one row: start from an all-ones mask
(`Constant::getAllOnesValue`, line 473; `ConstBool(true)`, line 631) and AND
in the reified result of every SIMD predicate in sequence
(`mask = CreateAnd(mask, bool_val)`, lines 592 and 639).  Both the
lane-parallel pass and the scalar remainder loop fold the same conjunction;
they differ only in iteration shape. -/
def rowMask (st : Storage) (preds : List SIMDPred) (t : Nat) : Bool :=
  preds.foldl (fun m p => m && reifyB (compareTyped st p t)) true

/-- The lane width `uint32_t N = 32` (line 262 of the source). -/
def N : Nat := 32

/-- The lane-parallel pass (lines 468-604): `VectorizedIterate` processes the
aligned prefix in whole blocks of `N` lanes.  For a block starting at row
`base`, the lane mask is computed lane-wise (one all-ones mask ANDed with
every predicate's reified comparison vector), and the scatter loop at lines
595-601 then walks lanes `i = 0 .. N-1` in order, appending row id `base + i`
to the selection vector at the advancing write cursor exactly when the lane's
mask bit is set. -/
def vectorizedPass (st : Storage) (preds : List SIMDPred)
    (tidStart blocks : Nat) : List Nat :=
  (List.range blocks).flatMap (fun b =>
    (List.range N).filterMap (fun i =>
      if rowMask st preds (tidStart + (b * N + i)) then
        some (tidStart + (b * N + i))
      else none))

/-- The scalar loop structure (lines 608-650): iterate row ids `first`,
`first + 1`, ... for `len` steps; for each row fold the reified SIMD
predicates into a scalar mask (lines 631-640) and append the row id to the
selection vector when the mask is true (`SetValidity` with the output
tracker, lines 629-645).  In the source this loop runs over the unaligned
remainder, from index `align_size` up to `orig_size`. -/
def scalarLoop (st : Storage) (preds : List SIMDPred) :
    Nat → Nat → List Nat
  | _, 0 => []
  | first, len + 1 =>
      (if rowMask st preds first then [first] else []) ++
        scalarLoop st preds (first + 1) len

/-- The SIMD stage of `FilterRowsByPredicate` on the row range
`[tidStart, tidEnd)`: `orig_size = tid_end - tid_start` (line 445),
`align_size = N * (orig_size / N)` (lines 446-447, unsigned division), the
lane-parallel pass over the aligned prefix, then the scalar remainder loop
whose results are appended after the vectorized survivors (the remainder's
write cursor starts at the selection vector's count, lines 621-623). -/
def simdFilteredSel (st : Storage) (preds : List SIMDPred)
    (tidStart tidEnd : Nat) : List Nat :=
  let origSize := tidEnd - tidStart
  let alignSize := N * (origSize / N)
  vectorizedPass st preds tidStart (origSize / N) ++
    scalarLoop st preds (tidStart + alignSize) (origSize - alignSize)

/-- The residual scalar pass (lines 653-686): iterate the rows currently in
the selection vector in order; for each, evaluate the residual predicate
(`DeriveValue`, line 675 — carried here as an opaque per-row evaluator),
assert the result is boolean-typed and reify it (lines 678-681), and keep the
row exactly when the reified decision is true (`SetValidity`, line 684).
A non-boolean-typed result aborts with the assertion failure instead of
producing a filtering decision. -/
def residualFilter (f : Nat → TypedVal) : List Nat → Except String (List Nat)
  | [] => Except.ok []
  | t :: ts =>
      match reifyChecked (f t) with
      | Except.error e => Except.error e
      | Except.ok b =>
          match residualFilter f ts with
          | Except.error e => Except.error e
          | Except.ok rest => Except.ok (if b then t :: rest else rest)

/-- The predicate-related fields of the scan plan as the translator reads
them: `GetSIMDPredicates()`, `GetNonSIMDPredicate()`, `GetPredicate()` and
`GetPredicate()->IsSIMDable()` (lines 51-71, 117-125, 232-245).  The general
predicate and the residual predicate are arbitrary expression trees, carried
as opaque per-row scalar evaluators (their evaluation is the external
expression translator). -/
structure ScanPlan where
  simdPreds : List SIMDPred
  nonSimd : Option (Nat → TypedVal)
  predicate : Option (Nat → TypedVal)
  predicateIsSIMDable : Bool

/-- `FilterRowsByPredicate` (lines 247-689, active branch): if there are no
SIMD predicates and no residual predicate, the whole general predicate
becomes the residual predicate (lines 258-260); the SIMD stage (aligned
lane-parallel pass plus scalar remainder) fills the selection vector; then,
if a residual predicate is present, the residual scalar pass narrows the
already-filled selection vector (lines 653-686). -/
def FilterRowsByPredicate (st : Storage) (plan : ScanPlan)
    (tidStart tidEnd : Nat) : Except String (List Nat) :=
  let nonSimd :=
    if plan.simdPreds.isEmpty && plan.nonSimd.isNone then plan.predicate
    else plan.nonSimd
  let sel := simdFilteredSel st plan.simdPreds tidStart tidEnd
  match nonSimd with
  | none => Except.ok sel
  | some f => residualFilter f sel

/-- Modelled from the spec: `TransactionRuntime::PerformVectorizedRead`, the
external transaction-visibility collaborator invoked at lines 224-226 with
the row range, the raw selection buffer and the selection vector's current
element count.  Per the specification it narrows the candidate set (the
current selection vector, or the full row range if the scan is unfiltered —
the element count `-1` marks the unfiltered case, as the `ORIGINAL_ORDER`
call site at line 222 passes `-1` for exactly that) to the rows visible under
the active transaction, in ascending row-id order, returning the surviving
count written in place. -/
def PerformVectorizedRead (visible : Nat → Bool) (tidStart tidEnd : Nat)
    (sel : List Nat) (numElems : Int) : List Nat :=
  let candidates :=
    if numElems = -1 then List.range' tidStart (tidEnd - tidStart) else sel
  candidates.filter visible

/-- Observable steps of `ProcessTuples`, in the order the generated code
performs them. -/
inductive ScanEvent where
  | predFilter
  | visFilter
  | consume
deriving DecidableEq

/-- Outcome of `ProcessTuples` for one chunk: the element count handed to the
visibility read, the selection vector of the row batch pushed downstream, and
the ordered list of processing steps. -/
structure ChunkResult where
  visCount : Int
  batchSel : List Nat
  events : List ScanEvent

/-- `ScanConsumer::ProcessTuples` (lines 142-181, active branch): if a
predicate exists, run `FilterRowsByPredicate` over the full row range
`[tid_start, tid_end)` (lines 160-162); otherwise set the selection vector's
element count to `-1` (line 164).  Then run `FilterRowsByVisibility` (line
167), which calls the visibility collaborator with the current element count
(lines 224-226).  Finally assemble the row batch over the narrowed selection
vector and push it downstream with a single `Consume(batch)` call (lines
170-180). -/
def ProcessTuples (st : Storage) (plan : ScanPlan) (visible : Nat → Bool)
    (tidStart tidEnd : Nat) : Except String ChunkResult :=
  match plan.predicate with
  | some _ =>
      match FilterRowsByPredicate st plan tidStart tidEnd with
      | Except.error e => Except.error e
      | Except.ok sel =>
          let cnt : Int := sel.length
          let visSel := PerformVectorizedRead visible tidStart tidEnd sel cnt
          Except.ok
            { visCount := cnt
              batchSel := visSel
              events := [ScanEvent.predFilter, ScanEvent.visFilter,
                         ScanEvent.consume] }
  | none =>
      let visSel := PerformVectorizedRead visible tidStart tidEnd [] (-1)
      Except.ok
        { visCount := -1
          batchSel := visSel
          events := [ScanEvent.visFilter, ScanEvent.consume] }

/-- Modelled from the spec: `Vector::kDefaultVectorSize`, the width appended
to the scan's name (line 121); the header defining it is not part of this
file set, and per the specification the name includes the lane width used by
the lane-parallel evaluation path, which is `N = 32` (line 262). -/
def kDefaultVectorSize : Nat := 32

/-- The single-quote character used around the table name at lines 118-122. -/
def squote : String := String.singleton (Char.ofNat 39)

/-- `TableScanTranslator::GetName` (lines 117-125): builds
`Scan('<table>'` then, when a predicate exists and it is SIMDable, appends
`, <kDefaultVectorSize>`, and closes with `)`. -/
def GetName (tableName : String) (plan : ScanPlan) : String :=
  let name := "Scan(" ++ squote ++ tableName ++ squote
  let name :=
    if plan.predicate.isSome && plan.predicateIsSIMDable then
      name ++ ", " ++ toString kDefaultVectorSize
    else name
  name ++ ")"

/-! ### Helper lemmas -/

theorem foldl_and_eq_all {α : Type} (f : α → Bool) (l : List α) (a : Bool) :
    l.foldl (fun m p => m && f p) a = (a && l.all f) := by
  induction l generalizing a with
  | nil => simp
  | cons x xs ih =>
      simp only [List.foldl_cons, List.all_cons, ih, Bool.and_assoc]

theorem rowMask_eq_all (st : Storage) (preds : List SIMDPred) (t : Nat) :
    rowMask st preds t = preds.all (fun p => reifyB (compareTyped st p t)) := by
  simp [rowMask, foldl_and_eq_all]

theorem scalarLoop_eq_filter (st : Storage) (preds : List SIMDPred) :
    ∀ (len first : Nat),
      scalarLoop st preds first len =
        (List.range' first len).filter (rowMask st preds)
  | 0, first => by simp [scalarLoop]
  | len + 1, first => by
      rw [List.range'_succ, List.filter_cons, scalarLoop,
        scalarLoop_eq_filter st preds len (first + 1)]
      by_cases h : rowMask st preds first <;> simp [h]

theorem filterMap_range_if (p : Nat → Bool) (base : Nat) :
    ∀ n : Nat,
      (List.range n).filterMap
          (fun i => if p (base + i) then some (base + i) else none) =
        (List.range' base n).filter p
  | 0 => by simp
  | n + 1 => by
      rw [List.range_succ, List.range'_1_concat, List.filterMap_append,
        List.filter_append, filterMap_range_if p base n]
      by_cases h : p (base + n) <;> simp [h, Nat.one_mul]

theorem vectorizedPass_eq_filter (st : Storage) (preds : List SIMDPred) :
    ∀ (blocks tidStart : Nat),
      vectorizedPass st preds tidStart blocks =
        (List.range' tidStart (blocks * N)).filter (rowMask st preds)
  | 0, tidStart => by simp [vectorizedPass]
  | blocks + 1, tidStart => by
      have hblock :
          (List.range N).filterMap
              (fun i =>
                if rowMask st preds (tidStart + (blocks * N + i)) then
                  some (tidStart + (blocks * N + i))
                else none) =
            (List.range' (tidStart + blocks * N) N).filter
              (rowMask st preds) := by
        rw [← filterMap_range_if (rowMask st preds) (tidStart + blocks * N) N]
        apply List.filterMap_congr
        intro i _
        rw [Nat.add_assoc]
      have hprev := vectorizedPass_eq_filter st preds blocks tidStart
      rw [vectorizedPass] at hprev ⊢
      rw [List.range_succ, List.flatMap_append, hprev, List.flatMap_cons,
        List.flatMap_nil, List.append_nil, hblock, ← List.filter_append,
        List.range'_append_1,
        show N + blocks * N = (blocks + 1) * N by
          rw [Nat.succ_mul, Nat.add_comm]]

theorem simdFilteredSel_eq_filter (st : Storage) (preds : List SIMDPred)
    (s e : Nat) :
    simdFilteredSel st preds s e =
      (List.range' s (e - s)).filter (rowMask st preds) := by
  have hle : (e - s) / N * N ≤ e - s := Nat.div_mul_le_self (e - s) N
  simp only [simdFilteredSel]
  rw [vectorizedPass_eq_filter, scalarLoop_eq_filter,
    Nat.mul_comm N ((e - s) / N), ← List.filter_append,
    List.range'_append_1,
    show e - s - (e - s) / N * N + (e - s) / N * N = e - s from by omega]

theorem residualFilter_eq_filter (f : Nat → TypedVal) :
    ∀ sel : List Nat, (∀ t ∈ sel, (f t).typ = SqlTypeId.boolean) →
      residualFilter f sel = Except.ok (sel.filter (fun t => reifyB (f t)))
  | [], _ => rfl
  | t :: ts, h => by
      have ht : (f t).typ = SqlTypeId.boolean := h t (List.mem_cons_self t ts)
      have hts := residualFilter_eq_filter f ts
        (fun u hu => h u (List.mem_cons_of_mem t hu))
      rw [residualFilter, reifyChecked, if_pos ht, hts, List.filter_cons]

theorem residualFilter_sublist (f : Nat → TypedVal) :
    ∀ (sel sel' : List Nat), residualFilter f sel = Except.ok sel' →
      sel'.Sublist sel
  | [], sel', h => by
      simp only [residualFilter] at h
      cases h
      exact List.Sublist.refl []
  | t :: ts, sel', h => by
      rw [residualFilter] at h
      cases hr : reifyChecked (f t) with
      | error e => rw [hr] at h; cases h
      | ok b =>
          rw [hr] at h
          cases hrest : residualFilter f ts with
          | error e => rw [hrest] at h; cases h
          | ok rest =>
              rw [hrest] at h
              cases h
              have ih := residualFilter_sublist f ts rest hrest
              by_cases hb : b
              · rw [if_pos hb]
                exact List.Sublist.cons₂ t ih
              · rw [if_neg hb]
                exact List.Sublist.cons t ih

theorem residualFilter_error_of_nonbool (f : Nat → TypedVal) :
    ∀ sel : List Nat, (∃ t ∈ sel, (f t).typ ≠ SqlTypeId.boolean) →
      ∃ msg, residualFilter f sel = Except.error msg
  | [], h => by simp at h
  | t :: ts, h => by
      rw [residualFilter]
      by_cases ht : (f t).typ = SqlTypeId.boolean
      · have hts : ∃ u ∈ ts, (f u).typ ≠ SqlTypeId.boolean := by
          rcases h with ⟨u, hu, hne⟩
          rcases List.mem_cons.mp hu with h1 | h2
          · exact absurd (h1 ▸ ht) hne
          · exact ⟨u, h2, hne⟩
        rcases residualFilter_error_of_nonbool f ts hts with ⟨msg, hmsg⟩
        rw [reifyChecked, if_pos ht, hmsg]
        exact ⟨msg, rfl⟩
      · rw [reifyChecked, if_neg ht]
        exact ⟨_, rfl⟩

/-! ### Concrete instances used by the witnesses -/

/-- A storage where every column stores 0 at every row. -/
def stW : Storage := fun _ _ => 0

/-- A visibility check accepting every row. -/
def visW : Nat → Bool := fun _ => true

/-- A residual evaluator that is boolean-typed, true and non-null
everywhere. -/
def fW : Nat → TypedVal := fun _ => ⟨SqlTypeId.boolean, true, false⟩

/-- A plan with a general predicate but no SIMD split. -/
def planW : ScanPlan :=
  { simdPreds := [], nonSimd := none, predicate := some fW,
    predicateIsSIMDable := true }

/-- A plan whose residual (non-SIMD) predicate is `fW`. -/
def planResidW : ScanPlan :=
  { simdPreds := [], nonSimd := some fW, predicate := some fW,
    predicateIsSIMDable := false }

/-- A residual evaluator of non-boolean (integer) type everywhere. -/
def fIntW : Nat → TypedVal := fun _ => ⟨SqlTypeId.integer, true, false⟩

/-- A plan with no predicate at all. -/
def planNoPred : ScanPlan :=
  { simdPreds := [], nonSimd := none, predicate := none,
    predicateIsSIMDable := false }

/-- A lane-eligible predicate comparing a nullable column (null sentinel 0)
against the constant 5. -/
def pW : SIMDPred :=
  { op := CmpOp.eq, lhs := Operand.column 0 true 0,
    rhs := Operand.const 5 false, castL := id, castR := id }

/-! ### Claims -/

/-- C1: for every chunk processed by `ScanConsumer::ProcessTuples`, when a
predicate exists the predicate filter runs over the full row range
`[tid_start, tid_end)` before the visibility filter runs (the visibility
read receives the predicate filter's output selection vector and its count),
and after both filters the assembled row batch is pushed downstream by
exactly one `Consume(batch)` call per chunk. -/
theorem processTuples_filter_order (st : Storage) (plan : ScanPlan)
    (visible : Nat → Bool) (s e : Nat) (r : ChunkResult)
    (hpred : plan.predicate.isSome = true)
    (hrun : ProcessTuples st plan visible s e = Except.ok r) :
    (∃ sel, FilterRowsByPredicate st plan s e = Except.ok sel ∧
      r.batchSel = PerformVectorizedRead visible s e sel (sel.length : Int)) ∧
    r.events = [ScanEvent.predFilter, ScanEvent.visFilter,
      ScanEvent.consume] ∧
    r.events.count ScanEvent.consume = 1 := by
  rcases Option.isSome_iff_exists.mp hpred with ⟨f, hf⟩
  cases hfl : FilterRowsByPredicate st plan s e with
  | error msg =>
      have hrun' : ProcessTuples st plan visible s e = Except.error msg := by
        simp only [ProcessTuples, hf, hfl]
      rw [hrun'] at hrun
      cases hrun
  | ok sel =>
      have hrun' : ProcessTuples st plan visible s e =
          Except.ok (ChunkResult.mk (sel.length : Int)
            (PerformVectorizedRead visible s e sel (sel.length : Int))
            [ScanEvent.predFilter, ScanEvent.visFilter,
              ScanEvent.consume]) := by
        simp only [ProcessTuples, hf, hfl]
      rw [hrun'] at hrun
      cases hrun
      refine ⟨⟨sel, rfl, rfl⟩, rfl, ?_⟩
      show List.count ScanEvent.consume
        [ScanEvent.predFilter, ScanEvent.visFilter, ScanEvent.consume] = 1
      decide

/-- Witness for C1 at a concrete chunk: two rows, a boolean general
predicate, all rows visible. -/
theorem processTuples_filter_order_witness :
    planW.predicate.isSome = true ∧
    ProcessTuples stW planW visW 0 2 =
      Except.ok (ChunkResult.mk 2 [0, 1]
        [ScanEvent.predFilter, ScanEvent.visFilter, ScanEvent.consume]) ∧
    ((∃ sel, FilterRowsByPredicate stW planW 0 2 = Except.ok sel ∧
        ([0, 1] : List Nat) =
          PerformVectorizedRead visW 0 2 sel (sel.length : Int)) ∧
      ([ScanEvent.predFilter, ScanEvent.visFilter, ScanEvent.consume] =
        [ScanEvent.predFilter, ScanEvent.visFilter, ScanEvent.consume]) ∧
      [ScanEvent.predFilter, ScanEvent.visFilter,
        ScanEvent.consume].count ScanEvent.consume = 1) :=
  ⟨rfl, rfl,
    processTuples_filter_order stW planW visW 0 2
      (ChunkResult.mk 2 [0, 1]
        [ScanEvent.predFilter, ScanEvent.visFilter, ScanEvent.consume])
      rfl rfl⟩

/-- C2: for any list of lane-eligible comparison predicates and any aligned
range (a whole number of lanes of width `N`), the lane-parallel (vectorized)
evaluation path produces the same surviving-row sequence (hence the same
surviving-row set) as evaluating the same predicates scalarly row-by-row
over the same range. -/
theorem vectorized_scalar_equivalence (st : Storage) (preds : List SIMDPred)
    (tidStart blocks : Nat) :
    vectorizedPass st preds tidStart blocks =
      scalarLoop st preds tidStart (blocks * N) := by
  rw [vectorizedPass_eq_filter, scalarLoop_eq_filter]

/-- C3: after the SIMD predicate stage, after the residual-predicate stage
and after the visibility stage, the selection vector is a sublist (hence a
strictly ascending subsequence) of the original row range, it is strictly
ascending, and each stage's output size is at most its input size. -/
theorem selection_stage_invariants (st : Storage) (preds : List SIMDPred)
    (visible : Nat → Bool) (s e : Nat) (f : Nat → TypedVal) (sel₂ : List Nat)
    (hres : residualFilter f (simdFilteredSel st preds s e) =
      Except.ok sel₂) :
    ((simdFilteredSel st preds s e).Sublist (List.range' s (e - s)) ∧
      (simdFilteredSel st preds s e).Pairwise (· < ·) ∧
      (simdFilteredSel st preds s e).length ≤ e - s) ∧
    (sel₂.Sublist (simdFilteredSel st preds s e) ∧
      sel₂.Pairwise (· < ·) ∧
      sel₂.length ≤ (simdFilteredSel st preds s e).length) ∧
    ((PerformVectorizedRead visible s e sel₂
        (sel₂.length : Int)).Sublist sel₂ ∧
      (PerformVectorizedRead visible s e sel₂
        (sel₂.length : Int)).Pairwise (· < ·) ∧
      (PerformVectorizedRead visible s e sel₂
        (sel₂.length : Int)).length ≤ sel₂.length) := by
  have h1 : (simdFilteredSel st preds s e).Sublist
      (List.range' s (e - s)) := by
    rw [simdFilteredSel_eq_filter]
    exact List.filter_sublist _
  have hrange : (List.range' s (e - s)).Pairwise (· < ·) :=
    List.pairwise_lt_range' s (e - s)
  have h1p : (simdFilteredSel st preds s e).Pairwise (· < ·) :=
    List.Pairwise.sublist h1 hrange
  have h1len : (simdFilteredSel st preds s e).length ≤ e - s := by
    have := h1.length_le
    rwa [List.length_range'] at this
  have h2 : sel₂.Sublist (simdFilteredSel st preds s e) :=
    residualFilter_sublist f _ sel₂ hres
  have hvis : PerformVectorizedRead visible s e sel₂ (sel₂.length : Int) =
      sel₂.filter visible := by
    have hne : ((sel₂.length : Int)) ≠ -1 := by omega
    simp [PerformVectorizedRead, hne]
  refine ⟨⟨h1, h1p, h1len⟩,
    ⟨h2, List.Pairwise.sublist h2 h1p, h2.length_le⟩, ?_, ?_, ?_⟩
  · rw [hvis]
    exact List.filter_sublist _
  · rw [hvis]
    exact List.Pairwise.sublist (List.filter_sublist _)
      (List.Pairwise.sublist h2 h1p)
  · rw [hvis]
    exact (List.filter_sublist _).length_le

/-- Witness for C3 at a concrete chunk of two rows with no SIMD predicates
and a boolean residual evaluator. -/
theorem selection_stage_invariants_witness :
    residualFilter fW (simdFilteredSel stW [] 0 2) =
      Except.ok [0, 1] ∧
    ((simdFilteredSel stW [] 0 2).Sublist (List.range' 0 (2 - 0)) ∧
      (simdFilteredSel stW [] 0 2).Pairwise (· < ·) ∧
      (simdFilteredSel stW [] 0 2).length ≤ 2 - 0) ∧
    (([0, 1] : List Nat).Sublist (simdFilteredSel stW [] 0 2) ∧
      ([0, 1] : List Nat).Pairwise (· < ·) ∧
      ([0, 1] : List Nat).length ≤ (simdFilteredSel stW [] 0 2).length) ∧
    ((PerformVectorizedRead visW 0 2 [0, 1]
        (([0, 1] : List Nat).length : Int)).Sublist [0, 1] ∧
      (PerformVectorizedRead visW 0 2 [0, 1]
        (([0, 1] : List Nat).length : Int)).Pairwise (· < ·) ∧
      (PerformVectorizedRead visW 0 2 [0, 1]
        (([0, 1] : List Nat).length : Int)).length ≤
        ([0, 1] : List Nat).length) :=
  ⟨rfl, selection_stage_invariants stW [] visW 0 2 fW [0, 1] rfl⟩

/-- C4: for every row and every comparison operator of a lane-eligible
predicate in the conjunction, if either operand of the comparison is null
for that row, the comparison result reifies to false and the row is excluded
from the selection vector produced by the predicate filter's SIMD stage. -/
theorem null_operand_excludes_row (st : Storage) (preds : List SIMDPred)
    (p : SIMDPred) (s e t : Nat) (hp : p ∈ preds)
    (hnull : (evalOperand p.castL st p.lhs t).2 = true ∨
      (evalOperand p.castR st p.rhs t).2 = true) :
    reifyB (compareTyped st p t) = false ∧
    t ∉ simdFilteredSel st preds s e := by
  have hfalse : reifyB (compareTyped st p t) = false := by
    rcases hnull with h | h <;> simp [reifyB, compareTyped, h]
  refine ⟨hfalse, ?_⟩
  rw [simdFilteredSel_eq_filter]
  intro hmem
  have hmask := (List.mem_filter.mp hmem).2
  rw [rowMask_eq_all] at hmask
  have hall := List.all_eq_true.mp hmask p hp
  rw [hfalse] at hall
  exact Bool.false_ne_true hall

/-- Witness for C4: a nullable column whose stored value is the null
sentinel, compared for equality against the constant 5; row 0 is excluded. -/
theorem null_operand_excludes_row_witness :
    pW ∈ [pW] ∧
    ((evalOperand pW.castL stW pW.lhs 0).2 = true ∨
      (evalOperand pW.castR stW pW.rhs 0).2 = true) ∧
    (reifyB (compareTyped stW pW 0) = false ∧
      0 ∉ simdFilteredSel stW [pW] 0 1) :=
  ⟨List.mem_singleton.mpr rfl, Or.inl (by decide),
    null_operand_excludes_row stW [pW] pW 0 1 0
      (List.mem_singleton.mpr rfl) (Or.inl (by decide))⟩

/-- C5: the predicate filter partitions the row range `[s, e)` into an
aligned prefix of exactly `N * ((e - s) / N)` rows (with `N = 32`) processed
by the lane-parallel pass, and a remainder of fewer than `N` rows processed
by the scalar loop in ascending index order starting at the aligned size. -/
theorem aligned_partition (st : Storage) (preds : List SIMDPred)
    (s e : Nat) :
    N = 32 ∧
    simdFilteredSel st preds s e =
      vectorizedPass st preds s ((e - s) / N) ++
        scalarLoop st preds (s + N * ((e - s) / N))
          (e - s - N * ((e - s) / N)) ∧
    vectorizedPass st preds s ((e - s) / N) =
      (List.range' s (N * ((e - s) / N))).filter (rowMask st preds) ∧
    scalarLoop st preds (s + N * ((e - s) / N))
        (e - s - N * ((e - s) / N)) =
      (List.range' (s + N * ((e - s) / N)) (e - s - N * ((e - s) / N))).filter
        (rowMask st preds) ∧
    e - s - N * ((e - s) / N) < N := by
  refine ⟨rfl, rfl, ?_, scalarLoop_eq_filter st preds _ _, ?_⟩
  · rw [vectorizedPass_eq_filter, Nat.mul_comm]
  · have hdm := Nat.div_add_mod (e - s) N
    have hlt : (e - s) % N < N := Nat.mod_lt _ (by decide)
    omega

/-- C6: if a residual (non-lane-eligible) predicate exists, the predicate
filter's second scalar pass iterates only the rows already present in the
narrowed selection vector, and a row survives exactly when the residual
predicate's reified result is true (i.e. it is removed exactly when the
result is false or null). -/
theorem residual_pass_narrowed (st : Storage) (plan : ScanPlan) (s e : Nat)
    (f : Nat → TypedVal) (hns : plan.nonSimd = some f)
    (hbool : ∀ t ∈ simdFilteredSel st plan.simdPreds s e,
      (f t).typ = SqlTypeId.boolean) :
    FilterRowsByPredicate st plan s e =
      Except.ok ((simdFilteredSel st plan.simdPreds s e).filter
        (fun t => reifyB (f t))) ∧
    ∀ t, (t ∈ (simdFilteredSel st plan.simdPreds s e).filter
        (fun t => reifyB (f t)) ↔
      t ∈ simdFilteredSel st plan.simdPreds s e ∧ reifyB (f t) = true) := by
  constructor
  · have h1 : FilterRowsByPredicate st plan s e =
        residualFilter f (simdFilteredSel st plan.simdPreds s e) := by
      simp [FilterRowsByPredicate, hns]
    rw [h1]
    exact residualFilter_eq_filter f _ hbool
  · intro t
    simp [List.mem_filter]

/-- Witness for C6: a residual evaluator that is boolean everywhere, on a
two-row chunk with no SIMD predicates. -/
theorem residual_pass_narrowed_witness :
    planResidW.nonSimd = some fW ∧
    (∀ t ∈ simdFilteredSel stW planResidW.simdPreds 0 2,
      (fW t).typ = SqlTypeId.boolean) ∧
    (FilterRowsByPredicate stW planResidW 0 2 =
      Except.ok ((simdFilteredSel stW planResidW.simdPreds 0 2).filter
        (fun t => reifyB (fW t))) ∧
    ∀ t, (t ∈ (simdFilteredSel stW planResidW.simdPreds 0 2).filter
        (fun t => reifyB (fW t)) ↔
      t ∈ simdFilteredSel stW planResidW.simdPreds 0 2 ∧
        reifyB (fW t) = true)) :=
  ⟨rfl, fun _ _ => rfl,
    residual_pass_narrowed stW planResidW 0 2 fW rfl (fun _ _ => rfl)⟩

/-- C7: every comparison's reified result has boolean SQL type and passes
the assertion-guarded reification; conversely, a value without boolean type
makes the guarded reification fail (the assertion), and a residual predicate
evaluating to a non-boolean type on some surviving row makes the residual
pass abort rather than produce a filtering decision. -/
theorem reified_boolean_type_contract (st : Storage) (p : SIMDPred) (t : Nat)
    (v : TypedVal) (f : Nat → TypedVal) (sel : List Nat) (t0 : Nat)
    (hv : v.typ ≠ SqlTypeId.boolean) (ht0 : t0 ∈ sel)
    (hf : (f t0).typ ≠ SqlTypeId.boolean) :
    (compareTyped st p t).typ = SqlTypeId.boolean ∧
    reifyChecked (compareTyped st p t) =
      Except.ok (reifyB (compareTyped st p t)) ∧
    (∃ msg, reifyChecked v = Except.error msg) ∧
    (∃ msg, residualFilter f sel = Except.error msg) := by
  refine ⟨rfl, ?_, ?_, ?_⟩
  · rw [reifyChecked,
      if_pos (show (compareTyped st p t).typ = SqlTypeId.boolean from rfl)]
  · rw [reifyChecked, if_neg hv]
    exact ⟨_, rfl⟩
  · exact residualFilter_error_of_nonbool f sel ⟨t0, ht0, hf⟩

/-- Witness for C7: an integer-typed value fails the reification guard and
an integer-typed residual evaluator aborts the residual pass. -/
theorem reified_boolean_type_contract_witness :
    (TypedVal.mk SqlTypeId.integer true false).typ ≠ SqlTypeId.boolean ∧
    (0 : Nat) ∈ ([0] : List Nat) ∧
    (fIntW 0).typ ≠ SqlTypeId.boolean ∧
    ((compareTyped stW pW 0).typ = SqlTypeId.boolean ∧
      reifyChecked (compareTyped stW pW 0) =
        Except.ok (reifyB (compareTyped stW pW 0)) ∧
      (∃ msg, reifyChecked (TypedVal.mk SqlTypeId.integer true false) =
        Except.error msg) ∧
      (∃ msg, residualFilter fIntW [0] = Except.error msg)) :=
  ⟨by decide, by decide, by decide,
    reified_boolean_type_contract stW pW 0
      (TypedVal.mk SqlTypeId.integer true false) fIntW [0] 0
      (by decide) (by decide) (by decide)⟩

/-- C9: when the scan has no predicate, `ProcessTuples` sets the selection
vector's element count to the sentinel `-1` before the visibility filter,
the visibility read receives that count, and with count `-1` the full row
range `[tid_start, tid_end)` is the candidate set. -/
theorem no_predicate_sentinel (st : Storage) (plan : ScanPlan)
    (visible : Nat → Bool) (s e : Nat) (hpred : plan.predicate = none) :
    ProcessTuples st plan visible s e =
      Except.ok (ChunkResult.mk (-1)
        (PerformVectorizedRead visible s e [] (-1))
        [ScanEvent.visFilter, ScanEvent.consume]) ∧
    PerformVectorizedRead visible s e [] (-1) =
      (List.range' s (e - s)).filter visible := by
  constructor
  · simp only [ProcessTuples, hpred]
  · simp [PerformVectorizedRead]

/-- Witness for C9 on a two-row chunk with no predicate. -/
theorem no_predicate_sentinel_witness :
    planNoPred.predicate = none ∧
    (ProcessTuples stW planNoPred visW 0 2 =
      Except.ok (ChunkResult.mk (-1)
        (PerformVectorizedRead visW 0 2 [] (-1))
        [ScanEvent.visFilter, ScanEvent.consume]) ∧
    PerformVectorizedRead visW 0 2 [] (-1) =
      (List.range' 0 (2 - 0)).filter visW) :=
  ⟨rfl, no_predicate_sentinel stW planNoPred visW 0 2 rfl⟩

/-- C10: if the plan supplies no SIMD sub-predicates and no residual
predicate but a general predicate exists, the lane mask stays all-ones (it
admits every row of the range into the selection vector) and the general
predicate then filters the full range through the residual scalar pass. -/
theorem fallback_scalar_path (st : Storage) (plan : ScanPlan) (s e : Nat)
    (f : Nat → TypedVal)
    (hs : plan.simdPreds = []) (hn : plan.nonSimd = none)
    (hp : plan.predicate = some f)
    (hb : ∀ t, (f t).typ = SqlTypeId.boolean) :
    (∀ t, rowMask st plan.simdPreds t = true) ∧
    simdFilteredSel st plan.simdPreds s e = List.range' s (e - s) ∧
    FilterRowsByPredicate st plan s e =
      Except.ok ((List.range' s (e - s)).filter (fun t => reifyB (f t))) := by
  have hmask : ∀ t, rowMask st plan.simdPreds t = true := by
    intro t
    rw [hs]
    rfl
  have hsel : simdFilteredSel st plan.simdPreds s e =
      List.range' s (e - s) := by
    rw [simdFilteredSel_eq_filter]
    exact List.filter_eq_self.mpr (fun a _ => hmask a)
  have hrun : FilterRowsByPredicate st plan s e =
      residualFilter f (simdFilteredSel st plan.simdPreds s e) := by
    simp [FilterRowsByPredicate, hs, hn, hp]
  refine ⟨hmask, hsel, ?_⟩
  rw [hrun, hsel, residualFilter_eq_filter f _ (fun t _ => hb t)]

/-- Witness for C10 on a two-row chunk: the general predicate is boolean,
true and non-null everywhere, so both rows survive through the fallback
scalar path. -/
theorem fallback_scalar_path_witness :
    planW.simdPreds = [] ∧ planW.nonSimd = none ∧
    planW.predicate = some fW ∧
    (∀ t, (fW t).typ = SqlTypeId.boolean) ∧
    ((∀ t, rowMask stW planW.simdPreds t = true) ∧
      simdFilteredSel stW planW.simdPreds 0 2 = List.range' 0 (2 - 0) ∧
      FilterRowsByPredicate stW planW 0 2 =
        Except.ok ((List.range' 0 (2 - 0)).filter
          (fun t => reifyB (fW t)))) :=
  ⟨rfl, rfl, rfl, fun _ => rfl,
    fallback_scalar_path stW planW 0 2 fW rfl rfl rfl (fun _ => rfl)⟩

/-- C8 counterexample: for a table whose name itself contains the digits of
the lane width, the name string contains "32" even though no vectorizable
predicate is present, so "contains the lane width exactly when a
vectorizable predicate is present" fails in the only-if direction. -/
theorem getName_width_marker_without_predicate :
    planNoPred.predicate = none ∧
    planNoPred.predicateIsSIMDable = false ∧
    (String.data "32") <:+: (GetName "t32" planNoPred).data := by
  refine ⟨rfl, rfl, ?_⟩
  decide

/-- C8 (amended): `GetName` returns a string that contains the table's name
and, when a predicate exists and is vectorizable (lane-parallel-eligible),
additionally contains the lane width used by the lane-parallel evaluation
path. -/
theorem getName_contains_table_and_width (tableName : String)
    (plan : ScanPlan) :
    tableName.data <:+: (GetName tableName plan).data ∧
    ((plan.predicate.isSome && plan.predicateIsSIMDable) = true →
      (toString kDefaultVectorSize).data <:+:
        (GetName tableName plan).data) := by
  constructor
  · by_cases h : (plan.predicate.isSome && plan.predicateIsSIMDable) = true
    · refine ⟨("Scan(" ++ squote).data,
        (squote ++ ", " ++ toString kDefaultVectorSize ++ ")").data, ?_⟩
      simp [GetName, h, List.append_assoc]
    · refine ⟨("Scan(" ++ squote).data, (squote ++ ")").data, ?_⟩
      simp [GetName, h, List.append_assoc]
  · intro h
    refine ⟨("Scan(" ++ squote ++ tableName ++ squote ++ ", ").data,
      (")" : String).data, ?_⟩
    simp [GetName, h, List.append_assoc]

/-- Witness for the amended C8 with a predicate present and vectorizable. -/
theorem getName_contains_table_and_width_witness :
    (planW.predicate.isSome && planW.predicateIsSIMDable) = true ∧
    (String.data "t") <:+: (GetName "t" planW).data ∧
    (toString kDefaultVectorSize).data <:+: (GetName "t" planW).data :=
  ⟨rfl, (getName_contains_table_and_width "t" planW).1,
    (getName_contains_table_and_width "t" planW).2 rfl⟩

end Peloton
